import Mathlib

/-!
Shallow embedding of the modal text editor implemented by `editorCommand`
(src/unnamed/part_001).  JS strings are modelled as `List Char`; JS numbers
holding cursor/scroll coordinates are modelled as `Int` (they can go
negative in the source).  File I/O is modelled by an explicit file-system
value `FS` carrying a write-success switch.
-/

abbrev Str := List Char

/-- JS `String.prototype.slice` index normalisation: negative indices count
from the end, and indices are clamped into `[0, len]`. -/
def jsIdx (len : Nat) (i : Int) : Nat :=
  (if i < 0 then max ((len : Int) + i) 0 else min i (len : Int)).toNat

/-- JS `s.slice(a, b)`. -/
def jsSlice (s : Str) (a b : Int) : Str :=
  (s.take (jsIdx s.length b)).drop (jsIdx s.length a)

/-- JS `s.slice(a)` (end argument omitted). -/
def jsSliceEnd (s : Str) (a : Int) : Str :=
  jsSlice s a (s.length : Int)

/-- JS `s.split(c)` for a single-character separator: splitting the empty
string yields `[""]`, and every separator occurrence produces a boundary. -/
def jsSplit (c : Char) : Str → List Str
  | [] => [[]]
  | a :: rest =>
    let r := jsSplit c rest
    if a = c then [] :: r
    else
      match r with
      | [] => [[a]]
      | h :: t => (a :: h) :: t

/-- JS `parts.join(c)` for a single-character separator. -/
def jsJoin (c : Char) : List Str → Str
  | [] => []
  | [l] => l
  | l :: l2 :: ls => l ++ c :: jsJoin c (l2 :: ls)

def isJsWS (c : Char) : Bool :=
  c == ' ' || c == '\t' || c == '\n' || c == '\r'

/-- JS `s.trim()` restricted to the whitespace characters that can occur in
the editor's command buffer. -/
def jsTrim (s : Str) : Str :=
  ((s.dropWhile isJsWS).reverse.dropWhile isJsWS).reverse

def digitsToNat (l : Str) : Nat :=
  l.foldl (fun acc c => acc * 10 + (c.toNat - 48)) 0

/-- JS `parseInt(s)`: optional sign followed by a longest digit prefix;
`none` models `NaN`. -/
def jsParseInt (s : Str) : Option Int :=
  let signRest : Int × Str :=
    match s with
    | '-' :: r => (-1, r)
    | '+' :: r => (1, r)
    | r => (1, r)
  let digits := signRest.2.takeWhile (fun c => c.isDigit)
  if digits = [] then none
  else some (signRest.1 * (digitsToNat digits : Int))

/-- JS `line.indexOf(term, start)` (with a non-negative clamped `start`):
the least position `i ≥ start` at which `term` occurs in `line`. -/
def indexOfFrom (line term : Str) (start : Nat) : Option Nat :=
  if term = [] then some (min start line.length)
  else
    ((List.range (line.length + 1)).filter
      (fun i => decide (start ≤ i) && term.isPrefixOf (line.drop i))).head?

inductive Mode where
  | normal
  | insert
  | command
deriving DecidableEq, Repr

/-- Semantic payloads of the `cmdLine.setContent` feedback calls. -/
inductive EdMsg where
  | noMsg
  | unsavedChanges
  | noFilename
  | saved (fn : Str)
  | saveError
deriving DecidableEq, Repr

/-- The `EditorState` record of `editorCommand`, plus a `message` field that
records the last user-feedback text written to the command line. -/
structure EditorState where
  content : List Str
  cursorRow : Int
  cursorCol : Int
  scrollTop : Int
  mode : Mode
  filename : Str
  modified : Bool
  searchTerm : Str
  commandBuffer : Str
  message : EdMsg
deriving DecidableEq, Repr

/-- The external file system: a path/content association plus a switch that
decides whether `fs.writeFileSync` succeeds or throws. -/
structure FS where
  files : List (Str × Str)
  writeOk : Bool
deriving DecidableEq, Repr

def FS.read (fs : FS) (p : Str) : Option Str :=
  (fs.files.find? (fun e => e.1 == p)).map (fun e => e.2)

def FS.write (fs : FS) (p bytes : Str) : FS × Bool :=
  if fs.writeOk then
    ({ fs with files := (p, bytes) :: fs.files.filter (fun e => !(e.1 == p)) }, true)
  else (fs, false)

/-- JS `state.content[r]`, total: out-of-range access is mapped to `""`. -/
def lineAt (st : EditorState) (r : Int) : Str :=
  if r < 0 then [] else st.content.getD r.toNat []

/-- The scroll recomputation at the top of `render`. -/
def adjustScroll (scrollTop cursorRow height : Int) : Int :=
  if cursorRow < scrollTop then cursorRow
  else if scrollTop + height ≤ cursorRow then cursorRow - height + 1
  else scrollTop

/-- The state effect of `render()`: only `scrollTop` is recomputed. -/
def render (height : Int) (st : EditorState) : EditorState :=
  { st with scrollTop := adjustScroll st.scrollTop st.cursorRow height }

/-- `saveFile()`: requires a bound filename, joins the buffer with `'\n'`
and writes it; on success clears `modified`. -/
def saveFile (st : EditorState) (fs : FS) : EditorState × FS × Bool :=
  if st.filename = [] then ({ st with message := EdMsg.noFilename }, fs, false)
  else if (fs.write st.filename (jsJoin '\n' st.content)).2 then
    ({ st with modified := false, message := EdMsg.saved st.filename },
      (fs.write st.filename (jsJoin '\n' st.content)).1, true)
  else ({ st with message := EdMsg.saveError }, fs, false)

/-- `cmd.trim().split(' ')` decomposed into `command` and `argument`. -/
def parseCmd (cmd : Str) : Str × Str :=
  let parts := jsSplit ' ' (jsTrim cmd)
  (parts.headD [], jsJoin ' ' parts.tail)

/-- The tail of `executeCommand` (run unless the process exits):
`mode := normal`, `commandBuffer := ''`, then `render()`. -/
def finishCmd (height : Int) (st : EditorState) : EditorState :=
  render height { st with mode := Mode.normal, commandBuffer := [] }

/-- The `switch (command)` dispatch of `executeCommand`.  The returned `Bool`
is the close flag (`process.exit` in the source). -/
def dispatchCmd (height : Int) (st : EditorState) (fs : FS) :
    Str → Str → EditorState × FS × Bool
  | ['w'], arg =>
    (finishCmd height (saveFile (if arg ≠ [] then { st with filename := arg } else st) fs).1,
      (saveFile (if arg ≠ [] then { st with filename := arg } else st) fs).2.1, false)
  | ['q'], _ =>
    if st.modified then
      (finishCmd height { st with message := EdMsg.unsavedChanges }, fs, false)
    else (st, fs, true)
  | ['q', '!'], _ => (st, fs, true)
  | ['w', 'q'], _ =>
    if (saveFile st fs).2.2 then ((saveFile st fs).1, (saveFile st fs).2.1, true)
    else (finishCmd height (saveFile st fs).1, (saveFile st fs).2.1, false)
  | ['e'], arg =>
    if arg = [] then (finishCmd height st, fs, false)
    else
      match fs.read arg with
      | some bytes =>
        (finishCmd height
          { st with filename := arg, content := jsSplit '\n' bytes,
                    cursorRow := 0, cursorCol := 0, modified := false }, fs, false)
      | none => (finishCmd height st, fs, false)
  | ['n', 'e', 'w'], arg =>
    (finishCmd height
      { st with filename := arg, content := [[]],
                cursorRow := 0, cursorCol := 0, modified := false }, fs, false)
  | command, _ =>
    match jsParseInt command with
    | some lineNum =>
      (finishCmd height
        { st with cursorRow := min (max 0 (lineNum - 1)) ((st.content.length : Int) - 1),
                  cursorCol := 0 }, fs, false)
    | none => (finishCmd height st, fs, false)

def executeCommand (height : Int) (st : EditorState) (fs : FS) (cmd : Str) :
    EditorState × FS × Bool :=
  let p := parseCmd cmd
  dispatchCmd height st fs p.1 p.2

/-- One iteration sweep of a `findNext` search loop: each pair holds a row
index and the `fromIndex` passed to `indexOf` for that row. -/
def scanRows (content : List Str) (term : Str) : List (Nat × Nat) → Option (Nat × Nat)
  | [] => none
  | p :: rest =>
    match indexOfFrom (content.getD p.1 []) term p.2 with
    | some c => some (p.1, c)
    | none => scanRows content term rest

/-- The two `for` loops of `findNext`: rows `cursorRow .. length-1` (the
current row starting at `cursorCol+1`), then wrap rows `0 .. cursorRow`. -/
def findNext (st : EditorState) : Option (Nat × Nat) :=
  let n := st.content.length
  let crow := st.cursorRow.toNat
  let firstPass := scanRows st.content st.searchTerm
    ((List.range' crow (n - crow)).map
      (fun i => (i, if i = crow then (st.cursorCol + 1).toNat else 0)))
  match firstPass with
  | some hit => some hit
  | none =>
    scanRows st.content st.searchTerm ((List.range' 0 (crow + 1)).map (fun i => (i, 0)))

/-- The full `findNext()` call: no-op on an empty search term; on a hit the
cursor moves to the match and `render()` runs; on a miss nothing changes. -/
def applyFindNext (height : Int) (st : EditorState) : EditorState :=
  if st.searchTerm = [] then st
  else
    match findNext st with
    | some hit => render height { st with cursorRow := (hit.1 : Int), cursorCol := (hit.2 : Int) }
    | none => st

inductive KName where
  | enter | escape | backspace
  | i | a | o | h | l | j | k | g | n | d | c | s
  | left | right | up | down
  | other
deriving DecidableEq, Repr

/-- A blessed keypress event: `ch` is the printable character when the raw
input has length 1. -/
structure KeyEv where
  ch : Option Char
  name : KName
  ctrl : Bool
  shift : Bool
deriving DecidableEq, Repr

/-- The `switch (key.name)` block of the normal-mode keypress handler. -/
def normalSwitch (height : Int) (st : EditorState) (k : KeyEv) : EditorState :=
  match k.name with
  | KName.i => render height { st with mode := Mode.insert }
  | KName.a =>
    render height
      { st with mode := Mode.insert,
                cursorCol := min (st.cursorCol + 1) ((lineAt st st.cursorRow).length : Int) }
  | KName.o =>
    render height
      { st with content := st.content.insertIdx (st.cursorRow + 1).toNat [],
                cursorRow := st.cursorRow + 1, cursorCol := 0,
                mode := Mode.insert, modified := true }
  | KName.h | KName.left =>
    render height { st with cursorCol := max 0 (st.cursorCol - 1) }
  | KName.l | KName.right =>
    render height
      { st with cursorCol := min (((lineAt st st.cursorRow).length : Int) - 1) (st.cursorCol + 1) }
  | KName.j | KName.down =>
    let row2 := min ((st.content.length : Int) - 1) (st.cursorRow + 1)
    render height
      { st with cursorRow := row2, cursorCol := min st.cursorCol ((lineAt st row2).length : Int) }
  | KName.k | KName.up =>
    let row2 := max 0 (st.cursorRow - 1)
    render height
      { st with cursorRow := row2, cursorCol := min st.cursorCol ((lineAt st row2).length : Int) }
  | KName.g => render height { st with cursorRow := 0, cursorCol := 0 }
  | KName.escape => render height { st with searchTerm := [] }
  | KName.n => applyFindNext height st
  | KName.d =>
    if 1 < st.content.length then
      let content2 := st.content.eraseIdx st.cursorRow.toNat
      render height
        { st with content := content2,
                  cursorRow := min st.cursorRow ((content2.length : Int) - 1),
                  modified := true }
    else render height { st with content := [[]], cursorCol := 0, modified := true }
  | _ => st

/-- The trailing `if (key.shift && key.name === 'g')` check of the
normal-mode handler (run after the name switch, not `else`-guarded). -/
def afterShiftG (height : Int) (k : KeyEv) (st : EditorState) : EditorState :=
  if k.shift = true ∧ k.name = KName.g then
    render height { st with cursorRow := (st.content.length : Int) - 1, cursorCol := 0 }
  else st

/-- The trailing `if (ch === ':')` check of the normal-mode handler. -/
def afterColon (height : Int) (k : KeyEv) (st : EditorState) : EditorState :=
  if k.ch = some ':' then
    render height { st with mode := Mode.command, commandBuffer := [] }
  else st

/-- The trailing `if (ch === '/')` check of the normal-mode handler (the
search textbox it opens is host UI; the state assignments are modelled). -/
def afterSlash (k : KeyEv) (st : EditorState) : EditorState :=
  if k.ch = some '/' then { st with mode := Mode.command, commandBuffer := [] }
  else st

/-- Normal-mode handling: Ctrl-C exit, Ctrl-S save, the name switch, then
the trailing shift-G / `:` / `/` checks, which are not `else`-guarded. -/
def normalStep (height : Int) (st : EditorState) (fs : FS) (k : KeyEv) :
    (EditorState × FS) × Bool :=
  if k.ctrl = true ∧ k.name = KName.c then ((st, fs), true)
  else if k.ctrl = true ∧ k.name = KName.s then
    (((saveFile st fs).1, (saveFile st fs).2.1), false)
  else
    ((afterSlash k (afterColon height k (afterShiftG height k (normalSwitch height st k))), fs),
      false)

/-- Insert-mode handling. -/
def insertStep (height : Int) (st : EditorState) (fs : FS) (k : KeyEv) :
    (EditorState × FS) × Bool :=
  if k.name = KName.escape then ((render height { st with mode := Mode.normal }, fs), false)
  else if k.name = KName.enter then
    let line := lineAt st st.cursorRow
    let contentA := st.content.set st.cursorRow.toNat (jsSlice line 0 st.cursorCol)
    let contentB := contentA.insertIdx (st.cursorRow + 1).toNat (jsSliceEnd line st.cursorCol)
    ((render height
        { st with content := contentB, cursorRow := st.cursorRow + 1,
                  cursorCol := 0, modified := true }, fs), false)
  else if k.name = KName.backspace then
    if 0 < st.cursorCol then
      let line := lineAt st st.cursorRow
      ((render height
          { st with content := st.content.set st.cursorRow.toNat
                      (jsSlice line 0 (st.cursorCol - 1) ++ jsSliceEnd line st.cursorCol),
                    cursorCol := st.cursorCol - 1, modified := true }, fs), false)
    else if 0 < st.cursorRow then
      let currLine := lineAt st st.cursorRow
      let prevLine := lineAt st (st.cursorRow - 1)
      ((render height
          { st with content := (st.content.set (st.cursorRow - 1).toNat
                      (prevLine ++ currLine)).eraseIdx st.cursorRow.toNat,
                    cursorRow := st.cursorRow - 1, cursorCol := (prevLine.length : Int),
                    modified := true }, fs), false)
    else ((render height st, fs), false)
  else
    match k.ch with
    | some ch =>
      let line := lineAt st st.cursorRow
      ((render height
          { st with content := st.content.set st.cursorRow.toNat
                      (jsSlice line 0 st.cursorCol ++ ch :: jsSliceEnd line st.cursorCol),
                    cursorCol := st.cursorCol + 1, modified := true }, fs), false)
    | none => ((st, fs), false)

/-- Command-mode handling. -/
def commandStep (height : Int) (st : EditorState) (fs : FS) (k : KeyEv) :
    (EditorState × FS) × Bool :=
  if k.name = KName.enter then
    let r := executeCommand height st fs st.commandBuffer
    ((r.1, r.2.1), r.2.2)
  else if k.name = KName.escape then
    ((render height { st with mode := Mode.normal, commandBuffer := [] }, fs), false)
  else if k.name = KName.backspace then
    ((render height { st with commandBuffer := st.commandBuffer.dropLast }, fs), false)
  else
    match k.ch with
    | some ch => ((render height { st with commandBuffer := st.commandBuffer ++ [ch] }, fs), false)
    | none => ((st, fs), false)

/-- One keypress event dispatched by mode, as in `screen.on('keypress')`. -/
def handleKeypress (height : Int) (p : EditorState × FS) (k : KeyEv) :
    (EditorState × FS) × Bool :=
  match p.1.mode with
  | Mode.command => commandStep height p.1 p.2 k
  | Mode.insert => insertStep height p.1 p.2 k
  | Mode.normal => normalStep height p.1 p.2 k

/-- A whole key-event sequence; the session stops consuming events once a
handler signals `process.exit`. -/
def runKeys (height : Int) (p : EditorState × FS) : List KeyEv → EditorState × FS
  | [] => p
  | k :: ks =>
    let r := handleKeypress height p k
    if r.2 then r.1 else runKeys height r.1 ks

/-- The initial `EditorState` of `editorCommand` with no file argument. -/
def initState : EditorState :=
  { content := [[]], cursorRow := 0, cursorCol := 0, scrollTop := 0,
    mode := Mode.normal, filename := [], modified := false,
    searchTerm := [], commandBuffer := [], message := EdMsg.noMsg }

/-- Spec-side description of the `n` search: the ordered list of
`(row, fromIndex)` pairs the spec says are examined — the cursor row from
`cursorCol+1`, then the following rows, then, wrapping, rows `0` up to and
including the cursor row, each from column `0`. -/
def specSearchOrder (st : EditorState) : List (Nat × Nat) :=
  (st.cursorRow.toNat, (st.cursorCol + 1).toNat)
    :: ((List.range' (st.cursorRow.toNat + 1)
          (st.content.length - (st.cursorRow.toNat + 1))).map (fun i => (i, 0))
        ++ (List.range' 0 (st.cursorRow.toNat + 1)).map (fun i => (i, 0)))

/-- Spec-side description of the `n` search result: the first hit along
`specSearchOrder`. -/
def specFindNext (st : EditorState) : Option (Nat × Nat) :=
  ((specSearchOrder st).filterMap
    (fun p => (indexOfFrom (st.content.getD p.1 []) st.searchTerm p.2).map
      (fun c => (p.1, c)))).head?

def fs0 : FS := { files := [], writeOk := true }

def kI : KeyEv := { ch := some 'i', name := KName.i, ctrl := false, shift := false }
def kA : KeyEv := { ch := some 'a', name := KName.a, ctrl := false, shift := false }
def kEsc : KeyEv := { ch := none, name := KName.escape, ctrl := false, shift := false }
def kEnter : KeyEv := { ch := some '\r', name := KName.enter, ctrl := false, shift := false }
def kD : KeyEv := { ch := some 'd', name := KName.d, ctrl := false, shift := false }
def kH : KeyEv := { ch := some 'h', name := KName.h, ctrl := false, shift := false }
def kL : KeyEv := { ch := some 'l', name := KName.l, ctrl := false, shift := false }
def kN : KeyEv := { ch := some 'n', name := KName.n, ctrl := false, shift := false }

/-- Reached from the initial state by `i`, typing `a`, `Escape`. -/
def cexState6 : EditorState := (runKeys 5 (initState, fs0) [kI, kA, kEsc]).1

/-- Reached from the initial state (viewport height 2) by `i`, four
`Enter`s, `Escape`, `dd`: the buffer shrinks from 5 lines to 4 while
`scrollTop` stays at 3. -/
def cexState7 : EditorState :=
  (runKeys 2 (initState, fs0) [kI, kEnter, kEnter, kEnter, kEnter, kEsc, kD]).1

/-- The spec's search-wraparound example state. -/
def searchExState : EditorState :=
  { initState with content := [['f','o','o'], ['b','a','r'], ['f','o','o']],
                   cursorRow := 2, cursorCol := 0, searchTerm := ['f','o','o'] }

/-- The spec's Insert/Enter-split example state. -/
def enterExState : EditorState :=
  { initState with mode := Mode.insert,
                   content := [['h','e','l','l','o',' ','w','o','r','l','d']],
                   cursorRow := 0, cursorCol := 5 }

/-- An insert-mode state at the append position of the line `"a"`. -/
def c6ExInsert : EditorState :=
  { initState with mode := Mode.insert, content := [['a']], cursorCol := 1 }

/-- A normal-mode state on the line `"ab"`. -/
def c6ExNormal : EditorState :=
  { initState with content := [['a','b']], cursorCol := 1 }

/-- A modified session bound to file `"f"`. -/
def modExState : EditorState :=
  { initState with content := [['h','i']], filename := ['f'], modified := true }

/-- A file system whose writes fail. -/
def fsF : FS := { files := [], writeOk := false }

/-- Round-trip example buffer `["a", "bc"]`. -/
def rtB : List Str := [['a'], ['b', 'c']]

/-- Round-trip example path. -/
def rtP : Str := ['f']

/-! ### Basic lemmas about the JS string operations -/

lemma jsSplit_ne_nil (c : Char) (l : Str) : jsSplit c l ≠ [] := by
  induction l with
  | nil => simp [jsSplit]
  | cons a rest ih =>
    simp only [jsSplit]
    split_ifs
    · simp
    · match h : jsSplit c rest with
      | [] => simp
      | h1 :: t => simp

lemma jsJoin_jsSplit (c : Char) (l : Str) : jsJoin c (jsSplit c l) = l := by
  induction l with
  | nil => rfl
  | cons a rest ih =>
    simp only [jsSplit]
    split_ifs with hac
    · subst hac
      match h : jsSplit a rest with
      | [] => exact absurd h (jsSplit_ne_nil a rest)
      | h1 :: t =>
        rw [h] at ih
        simp only [jsJoin]
        match t with
        | [] => simp only [jsJoin] at ih ⊢; simp [ih]
        | t1 :: t2 => simp only [jsJoin] at ih ⊢; simp [ih]
    · match h : jsSplit c rest with
      | [] => exact absurd h (jsSplit_ne_nil c rest)
      | h1 :: t =>
        rw [h] at ih
        simp only
        match t with
        | [] => simp only [jsJoin] at ih ⊢; simp [ih]
        | t1 :: t2 => simp only [jsJoin] at ih ⊢; simp [ih]

lemma jsSplit_append_of_not_mem (c : Char) (l s : Str) (h : c ∉ l) :
    jsSplit c (l ++ s) =
      (l ++ (jsSplit c s).headD []) :: (jsSplit c s).tail := by
  induction l with
  | nil =>
    simp only [List.nil_append, List.headD_eq_head?]
    match hs : jsSplit c s with
    | [] => exact absurd hs (jsSplit_ne_nil c s)
    | h1 :: t => simp
  | cons a l2 ih =>
    have hac : a ≠ c := fun hh => h (hh ▸ List.mem_cons_self a l2)
    have hm : c ∉ l2 := fun hh => h (List.mem_cons_of_mem a hh)
    simp only [List.cons_append, jsSplit, if_neg hac, List.append_eq, ih hm]

lemma jsSplit_jsJoin (c : Char) (B : List Str) (hB : B ≠ [])
    (hnl : ∀ l ∈ B, c ∉ l) : jsSplit c (jsJoin c B) = B := by
  induction B with
  | nil => exact absurd rfl hB
  | cons l B2 ih =>
    match B2 with
    | [] =>
      simp only [jsJoin]
      have : jsSplit c (l ++ ([] : Str)) = [l] := by
        rw [jsSplit_append_of_not_mem c l [] (hnl l (List.mem_cons_self l []))]
        simp [jsSplit]
      simpa using this
    | m :: B3 =>
      simp only [jsJoin]
      have h1 : jsSplit c (l ++ c :: jsJoin c (m :: B3))
          = (l ++ (jsSplit c (c :: jsJoin c (m :: B3))).headD [])
            :: (jsSplit c (c :: jsJoin c (m :: B3))).tail :=
        jsSplit_append_of_not_mem c l _ (hnl l (List.mem_cons_self l _))
      have h2 : jsSplit c (c :: jsJoin c (m :: B3)) = [] :: jsSplit c (jsJoin c (m :: B3)) := by
        simp [jsSplit]
      have h3 : jsSplit c (jsJoin c (m :: B3)) = m :: B3 :=
        ih (by simp) (fun x hx => hnl x (List.mem_cons_of_mem l hx))
      rw [h1, h2, h3]
      simp

lemma jsIdx_of_nonneg (len : Nat) (i : Int) (h : 0 ≤ i) :
    jsIdx len i = min i.toNat len := by
  unfold jsIdx
  rw [if_neg (by omega)]
  omega

lemma take_min_length (s : Str) (n : Nat) : s.take (min n s.length) = s.take n := by
  rcases le_total n s.length with h | h
  · rw [min_eq_left h]
  · rw [min_eq_right h, List.take_length, List.take_of_length_le h]

lemma drop_min_length (s : Str) (n : Nat) : s.drop (min n s.length) = s.drop n := by
  rcases le_total n s.length with h | h
  · rw [min_eq_left h]
  · rw [min_eq_right h, List.drop_length, List.drop_of_length_le h]

lemma jsSlice_zero (s : Str) (b : Int) (hb : 0 ≤ b) :
    jsSlice s 0 b = s.take b.toNat := by
  unfold jsSlice
  rw [jsIdx_of_nonneg _ _ hb, jsIdx_of_nonneg _ _ le_rfl]
  simp only [Int.toNat_zero, Nat.zero_min, List.drop_zero]
  exact take_min_length s b.toNat

lemma jsSliceEnd_of_nonneg (s : Str) (a : Int) (ha : 0 ≤ a) :
    jsSliceEnd s a = s.drop a.toNat := by
  unfold jsSliceEnd jsSlice
  rw [jsIdx_of_nonneg _ _ ha, jsIdx_of_nonneg _ _ (Int.natCast_nonneg _)]
  simp only [Int.toNat_natCast, Nat.min_self, List.take_length]
  exact drop_min_length s a.toNat

lemma set_insertIdx_succ_eq (l : List Str) (r : Nat) (x y : Str) (h : r < l.length) :
    (l.set r x).insertIdx (r + 1) y = l.take r ++ [x, y] ++ l.drop (r + 1) := by
  induction l generalizing r with
  | nil => simp at h
  | cons a t ih =>
    match r with
    | 0 => simp [List.insertIdx_succ_cons, List.insertIdx_zero]
    | Nat.succ m =>
      simp only [List.set_cons_succ, List.insertIdx_succ_cons, List.take_succ_cons,
        List.drop_succ_cons, List.cons_append, List.cons.injEq, true_and]
      exact ih m (by simpa using h)

lemma length_le_length_insertIdx (n : Nat) (a : Str) (l : List Str) :
    l.length ≤ (l.insertIdx n a).length := by
  induction l generalizing n with
  | nil =>
    match n with
    | 0 => simp [List.insertIdx_zero]
    | Nat.succ m => simp [List.insertIdx_succ_nil]
  | cons hd t ih =>
    match n with
    | 0 => simp [List.insertIdx_zero]
    | Nat.succ m => simpa [List.insertIdx_succ_cons] using ih m

/-! ### Projection lemmas for `render`, `finishCmd`, `saveFile`, `applyFindNext` -/

@[simp] lemma render_content (h : Int) (st : EditorState) :
    (render h st).content = st.content := rfl
@[simp] lemma render_cursorRow (h : Int) (st : EditorState) :
    (render h st).cursorRow = st.cursorRow := rfl
@[simp] lemma render_cursorCol (h : Int) (st : EditorState) :
    (render h st).cursorCol = st.cursorCol := rfl
@[simp] lemma render_mode (h : Int) (st : EditorState) :
    (render h st).mode = st.mode := rfl
@[simp] lemma render_filename (h : Int) (st : EditorState) :
    (render h st).filename = st.filename := rfl
@[simp] lemma render_modified (h : Int) (st : EditorState) :
    (render h st).modified = st.modified := rfl
@[simp] lemma render_message (h : Int) (st : EditorState) :
    (render h st).message = st.message := rfl
@[simp] lemma render_scrollTop (h : Int) (st : EditorState) :
    (render h st).scrollTop = adjustScroll st.scrollTop st.cursorRow h := rfl

@[simp] lemma finishCmd_content (h : Int) (st : EditorState) :
    (finishCmd h st).content = st.content := rfl
@[simp] lemma finishCmd_filename (h : Int) (st : EditorState) :
    (finishCmd h st).filename = st.filename := rfl
@[simp] lemma finishCmd_modified (h : Int) (st : EditorState) :
    (finishCmd h st).modified = st.modified := rfl
@[simp] lemma finishCmd_message (h : Int) (st : EditorState) :
    (finishCmd h st).message = st.message := rfl

lemma saveFile_content (st : EditorState) (fs : FS) :
    (saveFile st fs).1.content = st.content := by
  unfold saveFile
  split_ifs <;> rfl

@[simp] lemma afterShiftG_content (h : Int) (k : KeyEv) (st : EditorState) :
    (afterShiftG h k st).content = st.content := by
  unfold afterShiftG
  split_ifs <;> rfl

@[simp] lemma afterColon_content (h : Int) (k : KeyEv) (st : EditorState) :
    (afterColon h k st).content = st.content := by
  unfold afterColon
  split_ifs <;> rfl

@[simp] lemma afterSlash_content (k : KeyEv) (st : EditorState) :
    (afterSlash k st).content = st.content := by
  unfold afterSlash
  split_ifs <;> rfl

lemma saveFile_noname (st : EditorState) (fs : FS) (hfn : st.filename = []) :
    saveFile st fs = ({ st with message := EdMsg.noFilename }, fs, false) := by
  unfold saveFile
  rw [if_pos hfn]

lemma saveFile_fail (st : EditorState) (fs : FS) (hfn : st.filename ≠ [])
    (hwk : fs.writeOk = false) :
    saveFile st fs = ({ st with message := EdMsg.saveError }, fs, false) := by
  have hw : (fs.write st.filename (jsJoin '\n' st.content)).2 = false := by
    unfold FS.write
    rw [if_neg (by simp [hwk])]
  unfold saveFile
  rw [if_neg hfn, if_neg (by simp [hw])]

lemma saveFile_ok (st : EditorState) (fs : FS) (hfn : st.filename ≠ [])
    (hwk : fs.writeOk = true) :
    saveFile st fs =
      ({ st with modified := false, message := EdMsg.saved st.filename },
        (fs.write st.filename (jsJoin '\n' st.content)).1, true) := by
  have hw : (fs.write st.filename (jsJoin '\n' st.content)).2 = true := by
    unfold FS.write
    rw [if_pos hwk]
  unfold saveFile
  rw [if_neg hfn, if_pos hw]

lemma applyFindNext_content (h : Int) (st : EditorState) :
    (applyFindNext h st).content = st.content := by
  unfold applyFindNext
  split_ifs
  · rfl
  · split <;> rfl

/-! ### The buffer never becomes empty: per-handler length lemmas -/

lemma dispatchCmd_content_length (height : Int) (st : EditorState) (fs : FS)
    (command arg : Str) (h : 1 ≤ st.content.length) :
    1 ≤ (dispatchCmd height st fs command arg).1.content.length := by
  unfold dispatchCmd
  split
  · -- w
    simp only [finishCmd_content, saveFile_content]
    split_ifs <;> simpa using h
  · -- q
    split_ifs <;> simpa using h
  · -- q!
    simpa using h
  · -- wq
    split_ifs <;> simp only [finishCmd_content, saveFile_content] <;> simpa using h
  · -- e
    split_ifs
    · simpa using h
    · split
      · simpa using List.length_pos.mpr (jsSplit_ne_nil '\n' _)
      · simpa using h
  · -- new
    simp
  · -- line number / unknown
    split <;> simpa using h

lemma commandStep_content_length (height : Int) (st : EditorState) (fs : FS)
    (k : KeyEv) (h : 1 ≤ st.content.length) :
    1 ≤ (commandStep height st fs k).1.1.content.length := by
  unfold commandStep executeCommand
  split_ifs
  · exact dispatchCmd_content_length _ _ _ _ _ h
  · simpa using h
  · simpa using h
  · split <;> simpa using h

lemma insertStep_content_length (height : Int) (st : EditorState) (fs : FS)
    (k : KeyEv) (h : 1 ≤ st.content.length) :
    1 ≤ (insertStep height st fs k).1.1.content.length := by
  unfold insertStep
  split_ifs with h1 h2 h3 h4 h5
  · simpa using h
  · -- Enter: set then insertIdx
    have hle := length_le_length_insertIdx ((st.cursorRow + 1).toNat)
      (jsSliceEnd (lineAt st st.cursorRow) st.cursorCol)
      (st.content.set st.cursorRow.toNat (jsSlice (lineAt st st.cursorRow) 0 st.cursorCol))
    simp only [List.length_set] at hle
    simpa using le_trans h hle
  · -- Backspace with col > 0
    simpa using h
  · -- Backspace merge
    simp only [render_content]
    rw [List.length_eraseIdx]
    simp only [List.length_set]
    split_ifs <;> omega
  · -- Backspace at (0,0)
    simpa using h
  · -- printable character / none
    split <;> simpa using h

lemma normalSwitch_content_length (height : Int) (st : EditorState) (k : KeyEv)
    (h : 1 ≤ st.content.length) :
    1 ≤ (normalSwitch height st k).content.length := by
  unfold normalSwitch
  split
  all_goals try simpa using h
  · -- o: open line below
    have hle := length_le_length_insertIdx ((st.cursorRow + 1).toNat) [] st.content
    simpa using le_trans h hle
  · -- n: repeat search
    rw [applyFindNext_content]
    exact h
  · -- dd
    split_ifs with hgt
    · simp only [render_content]
      rw [List.length_eraseIdx]
      split_ifs <;> omega
    · simp

lemma normalStep_content_length (height : Int) (st : EditorState) (fs : FS)
    (k : KeyEv) (h : 1 ≤ st.content.length) :
    1 ≤ (normalStep height st fs k).1.1.content.length := by
  unfold normalStep
  split_ifs
  · exact h
  · simpa [saveFile_content] using h
  · simpa using normalSwitch_content_length height st k h

lemma handleKeypress_content_length (height : Int) (p : EditorState × FS)
    (k : KeyEv) (h : 1 ≤ p.1.content.length) :
    1 ≤ (handleKeypress height p k).1.1.content.length := by
  obtain ⟨st, fs⟩ := p
  unfold handleKeypress
  cases hm : st.mode
  · exact normalStep_content_length height st fs k h
  · exact insertStep_content_length height st fs k h
  · exact commandStep_content_length height st fs k h

/-! ### `findNext` agrees with the spec's description of the search order -/

lemma scanRows_append (content : List Str) (term : Str) (l1 l2 : List (Nat × Nat)) :
    scanRows content term (l1 ++ l2)
      = (match scanRows content term l1 with
          | some hit => some hit
          | none => scanRows content term l2) := by
  induction l1 with
  | nil => rfl
  | cons p rest ih =>
    simp only [List.cons_append, scanRows]
    rcases hidx : indexOfFrom (content.getD p.1 []) term p.2 with _ | c
    · simpa only [hidx] using ih
    · simp only [hidx]

lemma scanRows_eq_head_filterMap (content : List Str) (term : Str) (l : List (Nat × Nat)) :
    scanRows content term l
      = (l.filterMap (fun p => (indexOfFrom (content.getD p.1 []) term p.2).map
          (fun c => (p.1, c)))).head? := by
  induction l with
  | nil => rfl
  | cons p rest ih =>
    rcases hidx : indexOfFrom (content.getD p.1 []) term p.2 with _ | c <;>
      simp only [scanRows, List.filterMap_cons, hidx, Option.map_none', Option.map_some',
        List.head?_cons, ih]

lemma findNext_eq_specFindNext (st : EditorState)
    (hrow : st.cursorRow.toNat < st.content.length) :
    findNext st = specFindNext st := by
  simp only [findNext, specFindNext, specSearchOrder]
  have hd : st.content.length - st.cursorRow.toNat
      = (st.content.length - (st.cursorRow.toNat + 1)) + 1 := by omega
  have hr1 : List.range' st.cursorRow.toNat (st.content.length - st.cursorRow.toNat)
      = st.cursorRow.toNat
        :: List.range' (st.cursorRow.toNat + 1) (st.content.length - (st.cursorRow.toNat + 1)) := by
    rw [hd, List.range'_succ]
  rw [hr1]
  simp only [List.map_cons, if_pos rfl]
  have hmapeq : (List.range' (st.cursorRow.toNat + 1)
        (st.content.length - (st.cursorRow.toNat + 1))).map
          (fun i => (i, if i = st.cursorRow.toNat then (st.cursorCol + 1).toNat else 0))
      = (List.range' (st.cursorRow.toNat + 1)
          (st.content.length - (st.cursorRow.toNat + 1))).map (fun i => (i, 0)) := by
    apply List.map_congr_left
    intro a ha
    obtain ⟨i, _, hai⟩ := List.mem_range'.mp ha
    have : a ≠ st.cursorRow.toNat := by omega
    simp [this]
  rw [hmapeq, ← scanRows_eq_head_filterMap, ← List.cons_append, scanRows_append]
  simp only [if_true]

/-! ### Command-line parsing lemmas -/

lemma parseCmd_w_path (p : Str) (hp : p ≠ [])
    (hnt : p.reverse.dropWhile isJsWS = p.reverse) :
    parseCmd (['w', ' '] ++ p) = (['w'], p) := by
  obtain ⟨c, t, hct⟩ : ∃ c t, p.reverse = c :: t := by
    match hrev : p.reverse with
    | [] =>
      have : p = [] := by simpa using congrArg List.reverse hrev
      exact absurd this hp
    | c :: t => exact ⟨c, t, rfl⟩
  have hc : isJsWS c = false := by
    rw [hct] at hnt
    by_contra hb
    have hb' : isJsWS c = true := by simpa using hb
    rw [List.dropWhile_cons, if_pos (by simp [hb'])] at hnt
    have hlen := (List.dropWhile_sublist (l := t) isJsWS).length_le
    rw [hnt] at hlen
    simp at hlen
  have htrim : jsTrim (['w', ' '] ++ p) = ['w', ' '] ++ p := by
    unfold jsTrim
    have h1 : (['w', ' '] ++ p).dropWhile isJsWS = ['w', ' '] ++ p := by
      rw [List.cons_append, List.dropWhile_cons, if_neg (by simp [isJsWS])]
    rw [h1]
    have h2 : (['w', ' '] ++ p).reverse = p.reverse ++ [' ', 'w'] := by simp
    rw [h2, hct, List.cons_append, List.dropWhile_cons, if_neg (by simp [hc]),
      ← List.cons_append, ← hct]
    simp
  have hsplit : jsSplit ' ' (['w', ' '] ++ p) = ['w'] :: jsSplit ' ' p := by
    have hs1 : jsSplit ' ' (' ' :: p) = [] :: jsSplit ' ' p := by
      simp [jsSplit]
    have hw : ('w' : Char) ≠ ' ' := by decide
    simp only [List.cons_append, List.nil_append, jsSplit, List.append_eq, if_neg hw, hs1,
      if_true]
  unfold parseCmd
  rw [htrim, hsplit]
  simp [jsJoin_jsSplit]

/-! ### Claim theorems -/

/-- C1: for every editor session state with a non-empty line array and every
sequence of key events (including any sequence of `dd` deletions), the
buffer's line array always keeps at least one element. -/
theorem buffer_nonempty_invariant (height : Int) (st : EditorState) (fs : FS)
    (ks : List KeyEv) (h : 1 ≤ st.content.length) :
    1 ≤ (runKeys height (st, fs) ks).1.content.length := by
  induction ks generalizing st fs with
  | nil => simpa using h
  | cons k rest ih =>
    simp only [runKeys]
    split_ifs with hc
    · exact handleKeypress_content_length height (st, fs) k h
    · have h2 := handleKeypress_content_length height (st, fs) k h
      have h3 := ih (handleKeypress height (st, fs) k).1.1 (handleKeypress height (st, fs) k).1.2 h2
      simpa using h3

/-- C1 witness: the invariant instantiated on the initial one-line session
and a double `dd`. -/
theorem buffer_nonempty_invariant_witness :
    1 ≤ initState.content.length
    ∧ 1 ≤ (runKeys 5 (initState, fs0) [kD, kD]).1.content.length :=
  ⟨by decide, buffer_nonempty_invariant 5 initState fs0 [kD, kD] (by decide)⟩

/-- C2: after the scroll recomputation performed by `render`, the cursor row
lies inside the viewport: `scrollTop ≤ cursor.row ≤ scrollTop + height - 1`
(for any viewport height ≥ 1 and any prior state). -/
theorem viewport_containment (height : Int) (st : EditorState) (hh : 1 ≤ height) :
    (render height st).scrollTop ≤ (render height st).cursorRow
    ∧ (render height st).cursorRow ≤ (render height st).scrollTop + height - 1 := by
  simp only [render_scrollTop, render_cursorRow]
  unfold adjustScroll
  split_ifs <;> omega

/-- C2 witness: containment instantiated at the initial state with height 1. -/
theorem viewport_containment_witness :
    (1 : Int) ≤ 1
    ∧ ((render 1 initState).scrollTop ≤ (render 1 initState).cursorRow
      ∧ (render 1 initState).cursorRow ≤ (render 1 initState).scrollTop + 1 - 1) :=
  ⟨by decide, viewport_containment 1 initState (by decide)⟩

/-- C7 counterexample: a reachable state (initial session, viewport height 2,
keys `i`, Enter ×4, Escape, `dd`) in which `scrollTop = 3` exceeds
`max 0 (lines.length - visibleHeight) = 2`: the render recomputation never
clamps `scrollTop` against the buffer length after the buffer shrinks. -/
theorem scrolltop_clamp_counterexample :
    cexState7.scrollTop = 3 ∧ cexState7.content.length = 4
    ∧ ¬ (cexState7.scrollTop ≤ max 0 ((cexState7.content.length : Int) - 2)) := by
  decide

/-- C7 amended: after recomputation `scrollTop` is non-negative and bounded
by the cursor row (for a state with non-negative `scrollTop` and cursor
row), but it is not clamped to `max 0 (lines.length - visibleHeight)`. -/
theorem scrolltop_nonneg_le_row (height : Int) (st : EditorState)
    (hs : 0 ≤ st.scrollTop) (hr : 0 ≤ st.cursorRow) (hh : 1 ≤ height) :
    0 ≤ (render height st).scrollTop ∧ (render height st).scrollTop ≤ st.cursorRow := by
  simp only [render_scrollTop]
  unfold adjustScroll
  split_ifs <;> omega

/-- C7 amended witness: the bounds instantiated at the initial state. -/
theorem scrolltop_nonneg_le_row_witness :
    0 ≤ initState.scrollTop ∧ 0 ≤ initState.cursorRow ∧ (1 : Int) ≤ 1
    ∧ (0 ≤ (render 1 initState).scrollTop
      ∧ (render 1 initState).scrollTop ≤ initState.cursorRow) :=
  ⟨by decide, by decide, by decide, scrolltop_nonneg_le_row 1 initState (by decide) (by decide) (by decide)⟩

/-- C3: committing `q` closes the session iff `modified` is false; with
unsaved changes the session stays open and the blocking error is reported,
while `q!` closes unconditionally. -/
theorem quit_blocked_iff_modified (height : Int) (st : EditorState) (fs : FS) :
    (executeCommand height st fs ['q']).2.2 = !st.modified
    ∧ (executeCommand height st fs ['q']).1.message
        = (if st.modified = true then EdMsg.unsavedChanges else st.message)
    ∧ (executeCommand height st fs ['q', '!']).2.2 = true := by
  have e1 : executeCommand height st fs ['q'] = dispatchCmd height st fs ['q'] [] := rfl
  have e2 : executeCommand height st fs ['q', '!'] = dispatchCmd height st fs ['q', '!'] [] := rfl
  rw [e1, e2]
  refine ⟨?_, ?_, ?_⟩
  · cases hm : st.modified <;> simp [dispatchCmd, hm]
  · cases hm : st.modified <;> simp [dispatchCmd, hm]
  · simp [dispatchCmd]

/-- C4: a buffer (non-empty, no line containing a newline) joined with a
single newline and written, then read back and split on newlines, is
recovered exactly: `load(save(path, B)) = B`. -/
theorem save_load_roundtrip (B : List Str) (p : Str) (fs : FS)
    (hB : B ≠ []) (hnl : ∀ l ∈ B, '\n' ∉ l) (hwk : fs.writeOk = true) :
    jsSplit '\n' (jsJoin '\n' B) = B
    ∧ ((fs.write p (jsJoin '\n' B)).1.read p).map (jsSplit '\n') = some B := by
  have h1 := jsSplit_jsJoin '\n' B hB hnl
  refine ⟨h1, ?_⟩
  unfold FS.write FS.read
  rw [if_pos hwk]
  simp [List.find?_cons, h1]

/-- C4 witness: the round trip instantiated on `["a", "bc"]`. -/
theorem save_load_roundtrip_witness :
    rtB ≠ [] ∧ (∀ l ∈ rtB, '\n' ∉ l) ∧ fs0.writeOk = true
    ∧ (jsSplit '\n' (jsJoin '\n' rtB) = rtB
      ∧ ((fs0.write rtP (jsJoin '\n' rtB)).1.read rtP).map (jsSplit '\n') = some rtB) :=
  ⟨by decide, by decide, by decide, save_load_roundtrip rtB rtP fs0 (by decide) (by decide) (by decide)⟩

/-- C5: when a `w` or `wq` save fails with a write error, the in-memory
buffer is unchanged, `modified` stays true, the failure is reported, and
the session does not close. -/
theorem failed_save_preserves_buffer (height : Int) (st : EditorState) (fs : FS)
    (hm : st.modified = true) (hfn : st.filename ≠ []) (hwk : fs.writeOk = false) :
    ((executeCommand height st fs ['w']).2.2 = false
      ∧ (executeCommand height st fs ['w']).1.content = st.content
      ∧ (executeCommand height st fs ['w']).1.modified = true
      ∧ (executeCommand height st fs ['w']).1.message = EdMsg.saveError)
    ∧ ((executeCommand height st fs ['w', 'q']).2.2 = false
      ∧ (executeCommand height st fs ['w', 'q']).1.content = st.content
      ∧ (executeCommand height st fs ['w', 'q']).1.modified = true) := by
  have e1 : executeCommand height st fs ['w'] = dispatchCmd height st fs ['w'] [] := rfl
  have e2 : executeCommand height st fs ['w', 'q'] = dispatchCmd height st fs ['w', 'q'] [] := rfl
  have hsf := saveFile_fail st fs hfn hwk
  rw [e1, e2]
  simp [dispatchCmd, hsf, hm]

/-- C5 witness: a modified session bound to `"f"` against a failing file
system; the buffer comes through a failed `:w` unchanged. -/
theorem failed_save_preserves_buffer_witness :
    modExState.modified = true ∧ modExState.filename ≠ [] ∧ fsF.writeOk = false
    ∧ (executeCommand 5 modExState fsF ['w']).1.content = modExState.content
    ∧ (executeCommand 5 modExState fsF ['w']).2.2 = false :=
  ⟨by decide, by decide, by decide,
    (failed_save_preserves_buffer 5 modExState fsF (by decide) (by decide) (by decide)).1.2.1,
    (failed_save_preserves_buffer 5 modExState fsF (by decide) (by decide) (by decide)).1.1⟩

/-- C10: after `w <path>` whose write fails, the session's bound filename
remains `<path>` (the rebinding is not rolled back) even though buffer and
`modified` are unchanged; a later argument-less `w` therefore writes to
that same path. -/
theorem failed_save_keeps_rebound_filename (height : Int) (st : EditorState) (fs : FS)
    (p : Str) (hp : p ≠ []) (hnt : p.reverse.dropWhile isJsWS = p.reverse)
    (hwk : fs.writeOk = false) :
    (executeCommand height st fs (['w', ' '] ++ p)).1.filename = p
    ∧ (executeCommand height st fs (['w', ' '] ++ p)).1.content = st.content
    ∧ (executeCommand height st fs (['w', ' '] ++ p)).1.modified = st.modified
    ∧ (executeCommand height st fs (['w', ' '] ++ p)).2.2 = false
    ∧ (executeCommand height (executeCommand height st fs (['w', ' '] ++ p)).1
        { fs with writeOk := true } ['w']).1.message = EdMsg.saved p := by
  have e1 : executeCommand height st fs (['w', ' '] ++ p) = dispatchCmd height st fs ['w'] p := by
    unfold executeCommand
    rw [parseCmd_w_path p hp hnt]
  have hsf := saveFile_fail { st with filename := p } fs (by simpa using hp) hwk
  have hres : dispatchCmd height st fs ['w'] p
      = (finishCmd height { st with filename := p, message := EdMsg.saveError }, fs, false) := by
    simp [dispatchCmd, if_pos hp, hsf]
  refine ⟨?_, ?_, ?_, ?_, ?_⟩ <;> rw [e1, hres]
  all_goals try rfl
  have hsf2 := saveFile_ok
    (finishCmd height { st with filename := p, message := EdMsg.saveError })
    { fs with writeOk := true } (by simpa using hp) rfl
  have e2 : ∀ q : EditorState, executeCommand height q { fs with writeOk := true } ['w']
      = dispatchCmd height q { fs with writeOk := true } ['w'] [] := fun _ => rfl
  rw [e2]
  simp [dispatchCmd, hsf2]

/-- C10 witness: `w f` on the failing file system rebinds the filename to
`"f"`, and the retry with a plain `w` against a working file system reports
a save to `"f"`. -/
theorem failed_save_keeps_rebound_filename_witness :
    (['f'] : Str) ≠ [] ∧ (['f'] : Str).reverse.dropWhile isJsWS = (['f'] : Str).reverse
    ∧ fsF.writeOk = false
    ∧ (executeCommand 5 initState fsF (['w', ' '] ++ ['f'])).1.filename = ['f']
    ∧ (executeCommand 5 (executeCommand 5 initState fsF (['w', ' '] ++ ['f'])).1
        { fsF with writeOk := true } ['w']).1.message = EdMsg.saved ['f'] :=
  ⟨by decide, by decide, by decide,
    (failed_save_keeps_rebound_filename 5 initState fsF ['f'] (by decide) (by decide) (by decide)).1,
    (failed_save_keeps_rebound_filename 5 initState fsF ['f'] (by decide) (by decide) (by decide)).2.2.2.2⟩

/-- C8: with a non-empty search term and an in-range cursor row, `findNext`
computes exactly the spec's wrapped search order (current row from
`col+1`, following rows, then rows `0..row` from column `0`), the cursor
moves to the first hit and stays put when there is none; the buffer is
untouched. -/
theorem search_wraparound (height : Int) (st : EditorState)
    (hterm : st.searchTerm ≠ []) (hrow : st.cursorRow.toNat < st.content.length) :
    findNext st = specFindNext st
    ∧ (applyFindNext height st).cursorRow
        = (match specFindNext st with | some hit => (hit.1 : Int) | none => st.cursorRow)
    ∧ (applyFindNext height st).cursorCol
        = (match specFindNext st with | some hit => (hit.2 : Int) | none => st.cursorCol)
    ∧ (applyFindNext height st).content = st.content := by
  have heq := findNext_eq_specFindNext st hrow
  refine ⟨heq, ?_, ?_, applyFindNext_content height st⟩ <;>
  · unfold applyFindNext
    rw [if_neg hterm, heq]
    rcases specFindNext st with _ | ⟨i, c⟩ <;> simp

/-- C8 witness: buffer `["foo","bar","foo"]`, cursor `(2,0)`, term `"foo"`:
the search wraps and the cursor moves to `(0,0)`. -/
theorem search_wraparound_witness :
    searchExState.searchTerm ≠ []
    ∧ searchExState.cursorRow.toNat < searchExState.content.length
    ∧ (findNext searchExState = specFindNext searchExState
      ∧ (applyFindNext 5 searchExState).cursorRow
          = (match specFindNext searchExState with
              | some hit => (hit.1 : Int) | none => searchExState.cursorRow)
      ∧ (applyFindNext 5 searchExState).cursorCol
          = (match specFindNext searchExState with
              | some hit => (hit.2 : Int) | none => searchExState.cursorCol)
      ∧ (applyFindNext 5 searchExState).content = searchExState.content)
    ∧ (applyFindNext 5 searchExState).cursorRow = 0
    ∧ (applyFindNext 5 searchExState).cursorCol = 0 :=
  ⟨by decide, by decide, search_wraparound 5 searchExState (by decide) (by decide),
    by decide, by decide⟩

/-- C9: in Insert mode with an in-range cursor, Enter splits the current
line at the column into prefix and suffix lines, the cursor moves to
`(row+1, 0)` and `modified` becomes true. -/
theorem insert_enter_split (height : Int) (st : EditorState) (fs : FS)
    (hm : st.mode = Mode.insert) (hr0 : 0 ≤ st.cursorRow)
    (hrlt : st.cursorRow.toNat < st.content.length)
    (hc0 : 0 ≤ st.cursorCol)
    (hcl : st.cursorCol ≤ ((lineAt st st.cursorRow).length : Int)) :
    (handleKeypress height (st, fs) kEnter).1.1.content
      = st.content.take st.cursorRow.toNat
        ++ [(lineAt st st.cursorRow).take st.cursorCol.toNat,
            (lineAt st st.cursorRow).drop st.cursorCol.toNat]
        ++ st.content.drop (st.cursorRow.toNat + 1)
    ∧ (handleKeypress height (st, fs) kEnter).1.1.cursorRow = st.cursorRow + 1
    ∧ (handleKeypress height (st, fs) kEnter).1.1.cursorCol = 0
    ∧ (handleKeypress height (st, fs) kEnter).1.1.modified = true := by
  have hstep : handleKeypress height (st, fs) kEnter = insertStep height st fs kEnter := by
    unfold handleKeypress
    rw [hm]
  rw [hstep]
  unfold insertStep
  rw [if_neg (by simp [kEnter]), if_pos (by simp [kEnter])]
  refine ⟨?_, by simp, by simp, by simp⟩
  simp only [render_content]
  rw [jsSlice_zero _ _ hc0, jsSliceEnd_of_nonneg _ _ hc0,
    show (st.cursorRow + 1).toNat = st.cursorRow.toNat + 1 by omega]
  exact set_insertIdx_succ_eq st.content st.cursorRow.toNat _ _ hrlt

/-- C9 witness: line `"hello world"`, cursor `(0,5)`: Enter yields
`["hello", " world"]` with cursor `(1,0)` and `modified = true`. -/
theorem insert_enter_split_witness :
    enterExState.mode = Mode.insert
    ∧ (0 : Int) ≤ enterExState.cursorRow
    ∧ enterExState.cursorRow.toNat < enterExState.content.length
    ∧ (0 : Int) ≤ enterExState.cursorCol
    ∧ enterExState.cursorCol ≤ ((lineAt enterExState enterExState.cursorRow).length : Int)
    ∧ (handleKeypress 5 (enterExState, fs0) kEnter).1.1.content
        = enterExState.content.take enterExState.cursorRow.toNat
          ++ [(lineAt enterExState enterExState.cursorRow).take enterExState.cursorCol.toNat,
              (lineAt enterExState enterExState.cursorRow).drop enterExState.cursorCol.toNat]
          ++ enterExState.content.drop (enterExState.cursorRow.toNat + 1)
    ∧ (handleKeypress 5 (enterExState, fs0) kEnter).1.1.content
        = [['h','e','l','l','o'], [' ','w','o','r','l','d']]
    ∧ (handleKeypress 5 (enterExState, fs0) kEnter).1.1.cursorRow = 1
    ∧ (handleKeypress 5 (enterExState, fs0) kEnter).1.1.cursorCol = 0
    ∧ (handleKeypress 5 (enterExState, fs0) kEnter).1.1.modified = true :=
  ⟨by decide, by decide, by decide, by decide, by decide,
    (insert_enter_split 5 enterExState fs0 rfl (by decide) (by decide) (by decide) (by decide)).1,
    by decide, by decide, by decide, by decide⟩

/-- C6 counterexample: from the initial session, `i`, typing `a`, `Escape`
reaches a Normal-mode state on the non-empty line `"a"` whose cursor column
equals the line length (1), violating `0 ≤ col < max(1, lines[row].length)`:
leaving Insert mode does not clamp the column. -/
theorem normal_col_bound_counterexample :
    cexState6.mode = Mode.normal
    ∧ cexState6.content = [['a']]
    ∧ cexState6.cursorCol = 1
    ∧ ¬ (0 ≤ cexState6.cursorCol
        ∧ cexState6.cursorCol < max 1 ((lineAt cexState6 cexState6.cursorRow).length : Int)) := by
  decide

/-- C6 amended: Escape leaves Insert mode with the cursor unchanged, so the
Normal-mode column may equal the line length; the clamping that does exist:
`h` keeps the column ≥ 0, and `l` clamps it to `lines[row].length - 1`
(which is -1 on an empty line, so the column can even become negative). -/
theorem normal_col_escape_unclamped (height : Int) (st1 st2 : EditorState) (fs : FS)
    (h1 : st1.mode = Mode.insert) (h2 : st2.mode = Mode.normal) :
    ((handleKeypress height (st1, fs) kEsc).1.1.mode = Mode.normal
      ∧ (handleKeypress height (st1, fs) kEsc).1.1.cursorCol = st1.cursorCol
      ∧ (handleKeypress height (st1, fs) kEsc).1.1.cursorRow = st1.cursorRow
      ∧ (handleKeypress height (st1, fs) kEsc).1.1.content = st1.content)
    ∧ (0 ≤ (handleKeypress height (st2, fs) kH).1.1.cursorCol
      ∧ (handleKeypress height (st2, fs) kH).1.1.cursorCol = max 0 (st2.cursorCol - 1))
    ∧ ((handleKeypress height (st2, fs) kL).1.1.cursorCol
        ≤ ((lineAt st2 st2.cursorRow).length : Int) - 1
      ∧ (handleKeypress height (st2, fs) kL).1.1.cursorCol
          = min (((lineAt st2 st2.cursorRow).length : Int) - 1) (st2.cursorCol + 1)) := by
  have hs1 : handleKeypress height (st1, fs) kEsc = insertStep height st1 fs kEsc := by
    unfold handleKeypress
    rw [h1]
  have hsH : handleKeypress height (st2, fs) kH = normalStep height st2 fs kH := by
    unfold handleKeypress
    rw [h2]
  have hsL : handleKeypress height (st2, fs) kL = normalStep height st2 fs kL := by
    unfold handleKeypress
    rw [h2]
  refine ⟨?_, ?_, ?_⟩
  · rw [hs1]
    unfold insertStep
    rw [if_pos (by simp [kEsc])]
    simp
  · rw [hsH]
    unfold normalStep
    rw [if_neg (by simp [kH]), if_neg (by simp [kH])]
    unfold afterSlash afterColon afterShiftG
    rw [if_neg (by simp [kH]), if_neg (by simp [kH]), if_neg (by simp [kH])]
    unfold normalSwitch
    simp [kH, le_max_left]
  · rw [hsL]
    unfold normalStep
    rw [if_neg (by simp [kL]), if_neg (by simp [kL])]
    unfold afterSlash afterColon afterShiftG
    rw [if_neg (by simp [kL]), if_neg (by simp [kL]), if_neg (by simp [kL])]
    unfold normalSwitch
    simp [kL, min_le_left]

/-- C6 amended witness: Escape from the append position of `"a"` keeps the
column at 1, and `h`/`l` from column 1 of `"ab"` land in `[0, 1]`. -/
theorem normal_col_escape_unclamped_witness :
    c6ExInsert.mode = Mode.insert
    ∧ c6ExNormal.mode = Mode.normal
    ∧ (handleKeypress 5 (c6ExInsert, fs0) kEsc).1.1.cursorCol = c6ExInsert.cursorCol
    ∧ (handleKeypress 5 (c6ExNormal, fs0) kH).1.1.cursorCol = max 0 (c6ExNormal.cursorCol - 1)
    ∧ (handleKeypress 5 (c6ExNormal, fs0) kL).1.1.cursorCol
        ≤ ((lineAt c6ExNormal c6ExNormal.cursorRow).length : Int) - 1 :=
  ⟨by decide, by decide,
    (normal_col_escape_unclamped 5 c6ExInsert c6ExNormal fs0 rfl rfl).1.2.1,
    (normal_col_escape_unclamped 5 c6ExInsert c6ExNormal fs0 rfl rfl).2.1.2,
    (normal_col_escape_unclamped 5 c6ExInsert c6ExNormal fs0 rfl rfl).2.2.1⟩
